import Mathlib

/-!
go-inaction, chapter 2: the search package and the rss matcher.

A shallow embedding of `src/chapter2/search/match.go` (`Result`, `Matcher`,
`Match`, `Display`) and of `src/chapter2/matchers/rss.go` (`retrieve`,
`Search`), followed by the properties proved about them.

Conventions of the embedding.

* A Go `string` is a Lean `String`.
* A Go pointer `*T` is an `Option T`; the nil pointer is `none`.
* A Go `error` is an `Option Error`; the nil error is `none`.
* A Go slice `[]T` is a `List T`.  The nil slice and the empty slice are both
  `[]`: `range`, `len` and `append` do not tell them apart.
* Effects (a log line, a channel send, a write to standard output, an HTTP
  request, the closing of a response body) are recorded in order in a list
  that the embedded function returns next to its Go results.
-/

namespace Chapter2

/-! ## Data model -/

/-- An error value; it carries the text `err.Error()` returns. -/
structure Error where
  msg : String
  deriving DecidableEq, Repr

/-- Modelled from the spec: the struct `search.Feed` is declared in a file that
is not part of the sources at hand; the spec gives it the three string fields
`Type`, `Name` and `URI`, which are the ones `rss.go` reads.  `Type` is a
reserved word of Lean, so the field is written `Type_`. -/
structure Feed where
  Name : String
  URI : String
  Type_ : String
  deriving DecidableEq, Repr

/-- The struct `Result` of `match.go`. -/
structure Result where
  Field : String
  Content : String
  deriving DecidableEq, Repr

/-- The interface `Matcher` of `match.go`: its one method `Search` takes a feed
and a search term and returns a slice of `*Result` together with an error. -/
structure Matcher where
  Search : Feed → String → List (Option Result) × Option Error

/-! ## `Match` -/

/-- What a call of `Match` does that the rest of the program can see. -/
inductive MatchEvent where
  /-- The call `log.Println(err)`. -/
  | logged (err : Error)
  /-- The statement `results <- result`. -/
  | sent (result : Option Result)
  deriving DecidableEq, Repr

/-- The function `Match` of `match.go`.  It calls `matcher.Search`; when the
error is not nil it logs the error and returns; otherwise it ranges over the
returned slice and sends every element on `results`.  The value is the list
of events of the call, in order; the function has no Go result. -/
def Match (matcher : Matcher) (feed : Feed) (searchTerm : String) : List MatchEvent :=
  match matcher.Search feed searchTerm with
  | (_, some err) => [MatchEvent.logged err]
  | (searhResults, none) => searhResults.map MatchEvent.sent

/-- The values a list of events puts on the results channel, in order. -/
def sentValues : List MatchEvent → List (Option Result)
  | [] => []
  | MatchEvent.sent r :: es => r :: sentValues es
  | MatchEvent.logged _ :: es => sentValues es

/-! ## `Display` -/

/-- The channel as the receiving loop of `Display` meets it: the values it
delivers, in arrival order, and whether it is closed after the last of them. -/
structure ResultStream where
  values : List (Option Result)
  closed : Bool
  deriving DecidableEq, Repr

/-- How a call of `Display` ends, with the writes it made to standard output,
one per call of `fmt.Printf`, in order. -/
inductive DisplayOutcome where
  /-- The `range` loop ended and `Display` returned. -/
  | returned (writes : List String)
  /-- The loop waits for a value on an open, empty channel: no return. -/
  | blocked (writes : List String)
  /-- A nil `*Result` was received; `result.Field` dereferences it. -/
  | panicked (writes : List String)
  deriving DecidableEq, Repr

/-- The text `fmt.Printf("%s:\n%s\n\n", result.Field, result.Content)` writes. -/
def formatResult (result : Result) : String :=
  result.Field ++ ":\n" ++ result.Content ++ "\n\n"

/-- The loop `for result := range results` of `Display`, over the values still
to arrive, with the writes made so far. -/
def displayLoop (closed : Bool) : List (Option Result) → List String → DisplayOutcome
  | [], writes => if closed then DisplayOutcome.returned writes else DisplayOutcome.blocked writes
  | none :: _, writes => DisplayOutcome.panicked writes
  | some result :: rest, writes => displayLoop closed rest (writes ++ [formatResult result])

/-- The function `Display` of `match.go`. -/
def Display (results : ResultStream) : DisplayOutcome :=
  displayLoop results.closed results.values []

/-! ## The rss document of `rss.go` -/

/-- The struct `xml.Name` of the standard library. -/
structure xmlName where
  Space : String
  Local : String
  deriving DecidableEq, Repr

/-- The struct `item` of `rss.go`. -/
structure item where
  XMLName : xmlName
  PubData : String
  Title : String
  Description : String
  Link : String
  GUID : String
  GeoRssPoint : String
  deriving DecidableEq, Repr

/-- The struct `image` of `rss.go`. -/
structure image where
  XMLName : xmlName
  URL : String
  Title : String
  Link : String
  deriving DecidableEq, Repr

/-- The struct `channel` of `rss.go`. -/
structure channel where
  XMLName : xmlName
  Title : String
  Description : String
  Link : String
  PubData : String
  LastBuildDate : String
  TTL : String
  Language : String
  ManagingEditor : String
  WebMaster : String
  Image : image
  Item : List item
  deriving DecidableEq, Repr

/-- The struct `rssDocument` of `rss.go`. -/
structure rssDocument where
  XMLName : xmlName
  Channel : channel
  deriving DecidableEq, Repr

/-! ## The standard library as `rss.go` uses it -/

/-- The part of `http.Response` that `retrieve` reads: the status code and the
body, given by the bytes it delivers. -/
structure Response where
  StatusCode : Int
  Body : String
  deriving DecidableEq, Repr

/-- The library functions `rss.go` calls, taken as parameters.

* `httpGet` is `http.Get`: an error, or a response whose body is open.
* `xmlDecode` is `xml.NewDecoder(resp.Body).Decode(&document)` on a zero
  `document`: the document as the decoder leaves it, and the decoder's error.
* `Regexp`, `regexpCompile`, `regexpMatchString` are the type `*regexp.Regexp`,
  the function `regexp.Compile` and the method `(*Regexp).MatchString`. -/
structure Library where
  httpGet : String → Except Error Response
  xmlDecode : String → rssDocument × Option Error
  Regexp : Type
  regexpCompile : String → Except Error Regexp
  regexpMatchString : Regexp → String → Bool

/-- The function `regexp.MatchString` of the standard library: it compiles the
pattern, returns `false` and the error when that fails, and otherwise returns
whether the compiled expression matches `s`, with a nil error. -/
def MatchString (lib : Library) (pattern : String) (s : String) : Bool × Option Error :=
  match lib.regexpCompile pattern with
  | Except.error err => (false, some err)
  | Except.ok re => (lib.regexpMatchString re s, none)

/-- The search term is a syntactically valid regular expression. -/
def validTerm (lib : Library) (searchTerm : String) : Prop :=
  ∃ re, lib.regexpCompile searchTerm = Except.ok re

/-- The search term is valid and the expression it denotes matches `s`. -/
def termMatches (lib : Library) (searchTerm : String) (s : String) : Prop :=
  ∃ re, lib.regexpCompile searchTerm = Except.ok re ∧ lib.regexpMatchString re s = true

/-! ## `retrieve` -/

/-- What a call of `retrieve` or of `rssMatcher.Search` does that the rest of
the program can see. -/
inductive IOEvent where
  /-- A line written by `log.Printf`. -/
  | logged (line : String)
  /-- The call `http.Get(uri)`. -/
  | httpGet (uri : String)
  /-- The call of `Decode`, which reads the response body. -/
  | bodyDecoded
  /-- The call `resp.Body.Close()`. -/
  | bodyClosed
  deriving DecidableEq, Repr

/-- The two results of `retrieve`. -/
abbrev RetrieveResult := Option rssDocument × Option Error

/-- The statements of `retrieve` that follow `defer resp.Body.Close()`: the
check of the status code and the decoding. -/
def retrieveBody (lib : Library) (resp : Response) : RetrieveResult × List IOEvent :=
  if resp.StatusCode ≠ 200 then
    ((none, some ⟨"HTTP Resporse Error " ++ toString resp.StatusCode ++ "\n"⟩), [])
  else
    let decoded := lib.xmlDecode resp.Body
    ((some decoded.1, decoded.2), [IOEvent.bodyDecoded])

/-- The method `rssMatcher.retrieve` of `rss.go`.  The deferred
`resp.Body.Close()` runs when the statements after it have produced the
results, whichever `return` they left through. -/
def retrieve (lib : Library) (feed : Feed) : RetrieveResult × List IOEvent :=
  if feed.URI = "" then
    ((none, some ⟨"No rss feed URI provide"⟩), [])
  else
    match lib.httpGet feed.URI with
    | Except.error err => ((none, some err), [IOEvent.httpGet feed.URI])
    | Except.ok resp =>
      let rest := retrieveBody lib resp
      (rest.1, [IOEvent.httpGet feed.URI] ++ rest.2 ++ [IOEvent.bodyClosed])

/-! ## `rssMatcher.Search` -/

/-- How a call ends: with its Go results, or in a run-time panic. -/
inductive Return (α : Type) where
  | returned (results : α)
  | panicked
  deriving DecidableEq, Repr

/-- The two results of `Search`. -/
abbrev SearchResult := List (Option Result) × Option Error

/-- The loop `for _, channelItem := range document.Channel.Item` of `Search`
and the `return results, nil` after it, over the items still to scan, with the
slice `results` built so far. -/
def searchItems (lib : Library) (searchTerm : String) :
    List item → List (Option Result) → SearchResult
  | [], results => (results, none)
  | channelItem :: rest, results =>
    match MatchString lib searchTerm channelItem.Title with
    | (_, some err) => ([], some err)
    | (matched, none) =>
      let results :=
        if matched then results ++ [some ⟨"Title", channelItem.Title⟩] else results
      match MatchString lib searchTerm channelItem.Description with
      | (_, some err) => ([], some err)
      | (matched, none) =>
        let results :=
          if matched then results ++ [some ⟨"Description", channelItem.Description⟩]
          else results
        searchItems lib searchTerm rest results

/-- The line `Search` logs first. -/
def searchLogLine (feed : Feed) : String :=
  "Search Feed Type[" ++ feed.Type_ ++ "] Site[" ++ feed.Name ++ "] For Uri[" ++ feed.URI ++ "]\n"

/-- The method `rssMatcher.Search` of `rss.go`.  A nil `document` next to a
nil error would be dereferenced by `document.Channel.Item`. -/
def Search (lib : Library) (feed : Feed) (searchTerm : String) :
    Return SearchResult × List IOEvent :=
  let retrieved := retrieve lib feed
  let events := IOEvent.logged (searchLogLine feed) :: retrieved.2
  match retrieved.1 with
  | (_, some err) => (Return.returned ([], some err), events)
  | (none, none) => (Return.panicked, events)
  | (some document, none) =>
    (Return.returned (searchItems lib searchTerm document.Channel.Item []), events)

/-- The list the specification describes for a document whose items are
`items`: scanning the items in document order, each item contributes a `Title`
result exactly when the term matches its title, followed by a `Description`
result exactly when the term matches its description. -/
def specResults (matches_ : String → Bool) (items : List item) : List Result :=
  items.flatMap fun it =>
    (if matches_ it.Title then [⟨"Title", it.Title⟩] else []) ++
    (if matches_ it.Description then [⟨"Description", it.Description⟩] else [])

/-! ## The coordinator -/

/-- Modelled from the spec: the coordinator that launches `Match` once per feed,
counts the completions and closes the results channel is declared in a file
that is not part of the sources at hand.  The spec (Fan-Out Coordinator,
steps 1 to 4) gives it: one concurrent task per feed, which runs the search,
pushes its results and then signals completion exactly once on a counter
sized to the number of feeds; and one supervising task, which waits for all
completions and then closes the channel.  This is where one task stands. -/
inductive TaskState where
  /-- Inside `Match`, with the events the call still has to perform. -/
  | running (todo : List MatchEvent)
  /-- `Match` has returned; the completion is not signalled yet. -/
  | returned
  /-- The completion is signalled; the task is over. -/
  | signalled
  deriving DecidableEq, Repr

/-- Modelled from the spec: the state of the coordinator described under
`TaskState`: the tasks, the completion counter, whether the supervising task
has gone past its wait and closed the channel, how many times the channel was
closed, the values put on the channel so far, and the number of sends that
reached a channel already closed (each of them is a panic in Go). -/
structure RunState where
  tasks : List TaskState
  counter : Nat
  supervisorDone : Bool
  closes : Nat
  channel : List (Option Result)
  sendsOnClosed : Nat
  deriving DecidableEq, Repr

/-- Modelled from the spec: the atomic steps of the coordinator described under
`TaskState`; a schedule is a list of them. -/
inductive Action where
  /-- Task `i` performs the next event of its call of `Match`. -/
  | perform (i : Nat)
  /-- The call of `Match` of task `i`, all its events performed, returns. -/
  | finish (i : Nat)
  /-- Task `i` signals its completion. -/
  | signal (i : Nat)
  /-- The supervising task, its wait over, closes the channel. -/
  | close
  deriving DecidableEq, Repr

/-- Modelled from the spec: the state in which the coordinator described under
`TaskState` starts: one task per feed, each about to run `Match` with the
matcher looked up for the feed, the counter at the number of feeds, the
channel open and empty. -/
def initialState (feeds : List (Matcher × Feed)) (searchTerm : String) : RunState where
  tasks := feeds.map fun mf => TaskState.running (Match mf.1 mf.2 searchTerm)
  counter := feeds.length
  supervisorDone := false
  closes := 0
  channel := []
  sendsOnClosed := 0

/-- Modelled from the spec: one step of the coordinator described under
`TaskState`; `none` when the action is not enabled in the state.  The wait of
the supervising task is over when the counter is zero. -/
def step (s : RunState) : Action → Option RunState
  | Action.perform i =>
    match s.tasks[i]? with
    | some (TaskState.running (MatchEvent.sent result :: todo)) =>
      some { s with
        tasks := s.tasks.set i (TaskState.running todo)
        channel := s.channel ++ [result]
        sendsOnClosed := if s.closes = 0 then s.sendsOnClosed else s.sendsOnClosed + 1 }
    | some (TaskState.running (MatchEvent.logged _ :: todo)) =>
      some { s with tasks := s.tasks.set i (TaskState.running todo) }
    | _ => none
  | Action.finish i =>
    match s.tasks[i]? with
    | some (TaskState.running []) => some { s with tasks := s.tasks.set i TaskState.returned }
    | _ => none
  | Action.signal i =>
    match s.tasks[i]? with
    | some TaskState.returned =>
      some { s with tasks := s.tasks.set i TaskState.signalled, counter := s.counter - 1 }
    | _ => none
  | Action.close =>
    if s.counter = 0 ∧ s.supervisorDone = false then
      some { s with supervisorDone := true, closes := s.closes + 1 }
    else none

/-- Modelled from the spec: the state the coordinator described under
`TaskState` reaches along a schedule; `none` when some action of the schedule
is not enabled where it stands. -/
def runSchedule (s : RunState) : List Action → Option RunState
  | [] => some s
  | a :: rest =>
    match step s a with
    | none => none
    | some s' => runSchedule s' rest

/-- One for a task that has not signalled its completion, zero otherwise. -/
def unsignalledWeight : TaskState → Nat
  | TaskState.signalled => 0
  | _ => 1

/-- The number of tasks that have not signalled their completion. -/
def unsignalled (tasks : List TaskState) : Nat :=
  (tasks.map unsignalledWeight).sum

/-- The number of sends a task still has to perform. -/
def pendingWeight : TaskState → Nat
  | TaskState.running todo => (sentValues todo).length
  | _ => 0

/-- The number of sends the tasks still have to perform. -/
def pendingSends (tasks : List TaskState) : Nat :=
  (tasks.map pendingWeight).sum

/-- The number of values all the calls of `Match` together send. -/
def totalSends (feeds : List (Matcher × Feed)) (searchTerm : String) : Nat :=
  (feeds.map fun mf => (sentValues (Match mf.1 mf.2 searchTerm)).length).sum

/-- What holds in every state the coordinator reaches. -/
structure Reachable (total : Nat) (n : Nat) (s : RunState) : Prop where
  tasks_length : s.tasks.length = n
  counter_eq : s.counter = unsignalled s.tasks
  closes_eq : s.closes = if s.supervisorDone then 1 else 0
  done_counter : s.supervisorDone = true → s.counter = 0
  no_send_on_closed : s.sendsOnClosed = 0
  conservation : s.channel.length + pendingSends s.tasks = total

/-- A matcher that returns the given results and error for every feed. -/
def constMatcher (results : List (Option Result)) (err : Option Error) : Matcher where
  Search _ _ := (results, err)

/-! ## A concrete library, for evaluation -/

/-- An item with the given title and description. -/
def mkItem (title description : String) : item :=
  ⟨⟨"", "item"⟩, "", title, description, "", "", ""⟩

/-- A document with the given items. -/
def mkDocument (items : List item) : rssDocument :=
  ⟨⟨"", "rss"⟩, ⟨⟨"", "channel"⟩, "", "", "", "", "", "", "", "", "", ⟨⟨"", "image"⟩, "", "", ""⟩, items⟩⟩

/-- Whether `needle` starts `hay`. -/
def startsWith : List Char → List Char → Bool
  | [], _ => true
  | _ :: _, [] => false
  | a :: as, b :: bs => a == b && startsWith as bs

/-- Whether `needle` occurs in `hay`. -/
def occursIn (needle : List Char) : List Char → Bool
  | [] => startsWith needle []
  | b :: bs => startsWith needle (b :: bs) || occursIn needle bs

/-- A small library.  Three hosts answer: `a` with status 200 and a document of
two items, `b` with status 404, `e` with status 200 and a document without
items; `c` answers 200 with a body that does not decode; every other request
fails.  A pattern made of letters only is a valid expression and matches the
strings it occurs in; every other pattern fails to compile. -/
def sampleLibrary : Library where
  httpGet uri :=
    if uri = "http://a/feed" then Except.ok ⟨200, "A"⟩
    else if uri = "http://b/feed" then Except.ok ⟨404, "not found"⟩
    else if uri = "http://e/feed" then Except.ok ⟨200, "E"⟩
    else if uri = "http://c/feed" then Except.ok ⟨200, "<rss"⟩
    else Except.error ⟨"no such host"⟩
  xmlDecode body :=
    if body = "A" then
      (mkDocument [mkItem "the president" "a speech", mkItem "weather" "rain for the president"], none)
    else if body = "E" then (mkDocument [], none)
    else (mkDocument [], some ⟨"XML syntax error"⟩)
  Regexp := List Char
  regexpCompile pattern :=
    if pattern.data.all Char.isAlpha then Except.ok pattern.data
    else Except.error ⟨"error parsing regexp"⟩
  regexpMatchString re s := occursIn re s.data

/-! ## Properties of `Match` -/

theorem sentValues_map_sent (rs : List (Option Result)) :
    sentValues (rs.map MatchEvent.sent) = rs := by
  induction rs with
  | nil => rfl
  | cons r rs ih => simp [sentValues, ih]

/-- C1: when `Search` returns the list `rs` with a nil error, the events of
`Match` are exactly one send per element of `rs`, in the order of `rs`, and
nothing else; so the values put on the channel are `rs` itself and their
number is the length of `rs`. -/
theorem Match_sends_results_in_order (matcher : Matcher) (feed : Feed) (searchTerm : String)
    (rs : List (Option Result)) (h : matcher.Search feed searchTerm = (rs, none)) :
    Match matcher feed searchTerm = rs.map MatchEvent.sent ∧
    sentValues (Match matcher feed searchTerm) = rs ∧
    (sentValues (Match matcher feed searchTerm)).length = rs.length := by
  have hm : Match matcher feed searchTerm = rs.map MatchEvent.sent := by
    simp [Match, h]
  rw [hm, sentValues_map_sent]
  exact ⟨rfl, rfl, rfl⟩

theorem Match_sends_results_in_order_witness :
    (constMatcher [some ⟨"Title", "t"⟩, none, some ⟨"Description", "d"⟩] none).Search
        ⟨"A", "http://a/feed", "rss"⟩ "president" =
      ([some ⟨"Title", "t"⟩, none, some ⟨"Description", "d"⟩], none) ∧
    sentValues (Match (constMatcher [some ⟨"Title", "t"⟩, none, some ⟨"Description", "d"⟩] none)
        ⟨"A", "http://a/feed", "rss"⟩ "president") =
      [some ⟨"Title", "t"⟩, none, some ⟨"Description", "d"⟩] :=
  ⟨rfl, (Match_sends_results_in_order _ _ _ _ rfl).2.1⟩

/-- C2: when `Search` returns a non-nil error, whatever list comes with it,
the only event of `Match` is the logging of that error: no value is put on the
channel, and the call ends by returning: its embedding has no other way to
finish, and the error goes nowhere but the log. -/
theorem Match_error_sends_nothing (matcher : Matcher) (feed : Feed) (searchTerm : String)
    (rs : List (Option Result)) (err : Error)
    (h : matcher.Search feed searchTerm = (rs, some err)) :
    Match matcher feed searchTerm = [MatchEvent.logged err] ∧
    sentValues (Match matcher feed searchTerm) = [] ∧
    ∀ r, MatchEvent.sent r ∉ Match matcher feed searchTerm := by
  have hm : Match matcher feed searchTerm = [MatchEvent.logged err] := by
    simp [Match, h]
  rw [hm]
  refine ⟨rfl, rfl, ?_⟩
  intro r hr
  simp at hr

theorem Match_error_sends_nothing_witness :
    (constMatcher [some ⟨"Title", "t"⟩] (some ⟨"HTTP Resporse Error 404\n"⟩)).Search
        ⟨"B", "http://b/feed", "rss"⟩ "president" =
      ([some ⟨"Title", "t"⟩], some ⟨"HTTP Resporse Error 404\n"⟩) ∧
    sentValues (Match (constMatcher [some ⟨"Title", "t"⟩] (some ⟨"HTTP Resporse Error 404\n"⟩))
        ⟨"B", "http://b/feed", "rss"⟩ "president") = [] :=
  ⟨rfl, (Match_error_sends_nothing _ _ _ _ _ rfl).2.1⟩

/-! ## Properties of `Display` -/

theorem displayLoop_some (closed : Bool) (rs : List Result) (writes : List String) :
    displayLoop closed (rs.map some) writes =
      if closed then DisplayOutcome.returned (writes ++ rs.map formatResult)
      else DisplayOutcome.blocked (writes ++ rs.map formatResult) := by
  induction rs generalizing writes with
  | nil => simp [displayLoop]
  | cons r rs ih => simp [displayLoop, ih]

theorem displayLoop_returned (closed : Bool) (values : List (Option Result))
    (writes out : List String)
    (h : displayLoop closed values writes = DisplayOutcome.returned out) :
    closed = true ∧ out.length = writes.length + values.length ∧ ∀ v ∈ values, v ≠ none := by
  induction values generalizing writes with
  | nil =>
    cases closed <;> simp [displayLoop] at h
    subst h
    simp
  | cons v vs ih =>
    cases v with
    | none => simp [displayLoop] at h
    | some r =>
      simp only [displayLoop] at h
      obtain ⟨hc, hl, hv⟩ := ih _ h
      refine ⟨hc, ?_, ?_⟩
      · simp at hl ⊢
        omega
      · intro v hmem
        simp at hmem
        rcases hmem with rfl | hmem
        · simp
        · exact hv v hmem

/-- C3: for every finite sequence `rs` of non-nil results delivered by the
channel before it is closed, `Display` returns after exactly `rs.length`
writes, the i-th of them being the field of the i-th result, a colon and a
line feed, its content and two line feeds; while the channel is not closed
`Display` does not return (it has made the same writes and waits); and
whenever `Display` returns, the channel was closed and every delivered value
was written, one write each. -/
theorem Display_writes_every_result (rs : List Result) :
    Display ⟨rs.map some, true⟩ = DisplayOutcome.returned (rs.map formatResult) ∧
    (rs.map formatResult).length = rs.length ∧
    (∀ i (h : i < rs.length), (rs.map formatResult)[i]? =
      some ((rs.get ⟨i, h⟩).Field ++ ":\n" ++ (rs.get ⟨i, h⟩).Content ++ "\n\n")) ∧
    Display ⟨rs.map some, false⟩ = DisplayOutcome.blocked (rs.map formatResult) ∧
    ∀ (stream : ResultStream) (out : List String),
      Display stream = DisplayOutcome.returned out →
        stream.closed = true ∧ out.length = stream.values.length := by
  refine ⟨?_, ?_, ?_, ?_, ?_⟩
  · simp [Display, displayLoop_some]
  · simp
  · intro i h
    simp [List.getElem?_map, List.getElem?_eq_getElem h, formatResult]
  · simp [Display, displayLoop_some]
  · intro stream out h
    obtain ⟨hc, hl, _⟩ := displayLoop_returned _ _ _ _ h
    exact ⟨hc, by simpa using hl⟩

theorem Display_writes_every_result_witness :
    Display ⟨[some ⟨"Title", "the president"⟩, some ⟨"Description", "a speech"⟩], true⟩ =
      DisplayOutcome.returned ["Title:\nthe president\n\n", "Description:\na speech\n\n"] ∧
    Display ⟨[some ⟨"Title", "the president"⟩, some ⟨"Description", "a speech"⟩], false⟩ =
      DisplayOutcome.blocked ["Title:\nthe president\n\n", "Description:\na speech\n\n"] ∧
    (ResultStream.mk [some ⟨"Title", "the president"⟩] true).closed = true ∧
    ["Title:\nthe president\n\n"].length =
      (ResultStream.mk [some ⟨"Title", "the president"⟩] true).values.length :=
  have h := Display_writes_every_result [⟨"Title", "the president"⟩, ⟨"Description", "a speech"⟩]
  ⟨h.1, h.2.2.2.1,
    h.2.2.2.2 ⟨[some ⟨"Title", "the president"⟩], true⟩ ["Title:\nthe president\n\n"]
      (by decide)⟩

/-! ## Properties of `retrieve` -/

theorem retrieve_empty (lib : Library) (feed : Feed) (h : feed.URI = "") :
    retrieve lib feed = ((none, some ⟨"No rss feed URI provide"⟩), []) := by
  simp [retrieve, h]

theorem retrieve_get_error (lib : Library) (feed : Feed) (err : Error)
    (huri : feed.URI ≠ "") (hget : lib.httpGet feed.URI = Except.error err) :
    retrieve lib feed = ((none, some err), [IOEvent.httpGet feed.URI]) := by
  simp [retrieve, huri, hget]

theorem retrieve_bad_status (lib : Library) (feed : Feed) (resp : Response)
    (huri : feed.URI ≠ "") (hget : lib.httpGet feed.URI = Except.ok resp)
    (hstatus : resp.StatusCode ≠ 200) :
    retrieve lib feed =
      ((none, some ⟨"HTTP Resporse Error " ++ toString resp.StatusCode ++ "\n"⟩),
        [IOEvent.httpGet feed.URI, IOEvent.bodyClosed]) := by
  simp [retrieve, retrieveBody, huri, hget, hstatus]

theorem retrieve_decoded (lib : Library) (feed : Feed) (resp : Response)
    (huri : feed.URI ≠ "") (hget : lib.httpGet feed.URI = Except.ok resp)
    (hstatus : resp.StatusCode = 200) :
    retrieve lib feed =
      ((some (lib.xmlDecode resp.Body).1, (lib.xmlDecode resp.Body).2),
        [IOEvent.httpGet feed.URI, IOEvent.bodyDecoded, IOEvent.bodyClosed]) := by
  simp [retrieve, retrieveBody, huri, hget, hstatus]

/-- The results of `retrieve` are never a nil document next to a nil error. -/
theorem retrieve_not_nil_nil (lib : Library) (feed : Feed) :
    (retrieve lib feed).1 ≠ (none, none) := by
  by_cases huri : feed.URI = ""
  · simp [retrieve_empty lib feed huri]
  · cases hget : lib.httpGet feed.URI with
    | error err => simp [retrieve_get_error lib feed err huri hget]
    | ok resp =>
      by_cases hstatus : resp.StatusCode = 200
      · simp [retrieve_decoded lib feed resp huri hget hstatus]
      · simp [retrieve_bad_status lib feed resp huri hget hstatus]

/-! ## Properties of `rssMatcher.Search` -/

theorem MatchString_ok (lib : Library) (pattern s : String) (re : lib.Regexp)
    (h : lib.regexpCompile pattern = Except.ok re) :
    MatchString lib pattern s = (lib.regexpMatchString re s, none) := by
  simp [MatchString, h]

theorem MatchString_error (lib : Library) (pattern s : String) (err : Error)
    (h : lib.regexpCompile pattern = Except.error err) :
    MatchString lib pattern s = (false, some err) := by
  simp [MatchString, h]

theorem searchItems_valid (lib : Library) (searchTerm : String) (re : lib.Regexp)
    (h : lib.regexpCompile searchTerm = Except.ok re) (items : List item)
    (results : List (Option Result)) :
    searchItems lib searchTerm items results =
      (results ++ (specResults (lib.regexpMatchString re) items).map some, none) := by
  induction items generalizing results with
  | nil => simp [searchItems, specResults]
  | cons it rest ih =>
    simp only [searchItems, MatchString_ok lib searchTerm _ re h]
    rw [ih]
    cases ht : lib.regexpMatchString re it.Title <;>
      cases hd : lib.regexpMatchString re it.Description <;>
      simp [specResults, ht, hd]

theorem searchItems_invalid (lib : Library) (searchTerm : String) (err : Error)
    (h : lib.regexpCompile searchTerm = Except.error err) (it : item) (rest : List item)
    (results : List (Option Result)) :
    searchItems lib searchTerm (it :: rest) results = ([], some err) := by
  simp [searchItems, MatchString_error lib searchTerm _ err h]

theorem Search_of_retrieve_error (lib : Library) (feed : Feed) (searchTerm : String)
    (document : Option rssDocument) (err : Error)
    (h : (retrieve lib feed).1 = (document, some err)) :
    (Search lib feed searchTerm).1 = Return.returned ([], some err) := by
  simp [Search, h]

theorem Search_of_retrieve_ok (lib : Library) (feed : Feed) (searchTerm : String)
    (document : rssDocument) (h : (retrieve lib feed).1 = (some document, none)) :
    (Search lib feed searchTerm).1 =
      Return.returned (searchItems lib searchTerm document.Channel.Item []) := by
  simp [Search, h]

theorem Search_events (lib : Library) (feed : Feed) (searchTerm : String) :
    (Search lib feed searchTerm).2 = IOEvent.logged (searchLogLine feed) :: (retrieve lib feed).2 := by
  unfold Search
  rcases hr : (retrieve lib feed).1 with ⟨_ | document, _ | err⟩ <;> simp [hr]

theorem Search_eq_specResults (lib : Library) (feed : Feed) (searchTerm : String)
    (document : rssDocument) (re : lib.Regexp)
    (hret : (retrieve lib feed).1 = (some document, none))
    (hre : lib.regexpCompile searchTerm = Except.ok re) :
    (Search lib feed searchTerm).1 =
      Return.returned
        ((specResults (lib.regexpMatchString re) document.Channel.Item).map some, none) := by
  rw [Search_of_retrieve_ok lib feed searchTerm document hret,
    searchItems_valid lib searchTerm re hre]
  simp

/-- C5: when retrieval succeeds with a document and the search term compiles
to the expression `re`, `Search` returns a nil error and exactly the list the
specification describes: the items scanned in document order, each giving a
`Title` result if and only if `re` matches its title, followed by a
`Description` result if and only if `re` matches its description. -/
theorem Search_returns_spec_results (lib : Library) (feed : Feed) (searchTerm : String)
    (document : rssDocument) (re : lib.Regexp)
    (hret : (retrieve lib feed).1 = (some document, none))
    (hre : lib.regexpCompile searchTerm = Except.ok re) :
    (Search lib feed searchTerm).1 =
      Return.returned
        ((specResults (lib.regexpMatchString re) document.Channel.Item).map some, none) :=
  Search_eq_specResults lib feed searchTerm document re hret hre

theorem Search_returns_spec_results_witness :
    (retrieve sampleLibrary ⟨"A", "http://a/feed", "rss"⟩).1 =
      (some (mkDocument [mkItem "the president" "a speech",
        mkItem "weather" "rain for the president"]), none) ∧
    sampleLibrary.regexpCompile "president" = Except.ok "president".data ∧
    (Search sampleLibrary ⟨"A", "http://a/feed", "rss"⟩ "president").1 =
      Return.returned ([some ⟨"Title", "the president"⟩,
        some ⟨"Description", "rain for the president"⟩], none) :=
  ⟨by decide, rfl,
    (Search_returns_spec_results sampleLibrary ⟨"A", "http://a/feed", "rss"⟩ "president"
      (mkDocument [mkItem "the president" "a speech", mkItem "weather" "rain for the president"])
      "president".data (by decide) rfl).trans (by decide)⟩

/-- C6, as stated, fails: the host `e` answers with a document that has no
items, the term `(` does not compile, and `Search` returns a nil error, since
the loop that would call `regexp.MatchString` has nothing to range over. -/
theorem Search_no_items_ignores_term_counterexample :
    (retrieve sampleLibrary ⟨"E", "http://e/feed", "rss"⟩).1 = (some (mkDocument []), none) ∧
    ¬ validTerm sampleLibrary "(" ∧
    (Search sampleLibrary ⟨"E", "http://e/feed", "rss"⟩ "(").1 = Return.returned ([], none) := by
  refine ⟨by decide, ?_, by decide⟩
  rintro ⟨re, hre⟩
  have hbad : sampleLibrary.regexpCompile "(" = Except.error ⟨"error parsing regexp"⟩ := rfl
  rw [hbad] at hre
  cases hre

/-- C6, amended: when retrieval succeeds with a document and the search term
is not a valid regular expression, `Search` returns no results and the error
of the compilation if the document has at least one item, and no results and
a nil error if the document has no item. -/
theorem Search_rejects_bad_term_on_items (lib : Library) (feed : Feed) (searchTerm : String)
    (document : rssDocument)
    (hret : (retrieve lib feed).1 = (some document, none))
    (hbad : ¬ validTerm lib searchTerm) :
    (document.Channel.Item ≠ [] →
      ∃ err, lib.regexpCompile searchTerm = Except.error err ∧
        (Search lib feed searchTerm).1 = Return.returned ([], some err)) ∧
    (document.Channel.Item = [] →
      (Search lib feed searchTerm).1 = Return.returned ([], none)) := by
  rw [Search_of_retrieve_ok lib feed searchTerm document hret]
  constructor
  · intro hne
    cases hc : lib.regexpCompile searchTerm with
    | ok re => exact absurd ⟨re, hc⟩ hbad
    | error err =>
      refine ⟨err, rfl, ?_⟩
      cases hitems : document.Channel.Item with
      | nil => exact absurd hitems hne
      | cons it rest => rw [searchItems_invalid lib searchTerm err hc]
  · intro hnil
    rw [hnil]
    rfl

theorem Search_rejects_bad_term_on_items_witness :
    (retrieve sampleLibrary ⟨"A", "http://a/feed", "rss"⟩).1 =
      (some (mkDocument [mkItem "the president" "a speech",
        mkItem "weather" "rain for the president"]), none) ∧
    sampleLibrary.regexpCompile "(" = Except.error ⟨"error parsing regexp"⟩ ∧
    (Search sampleLibrary ⟨"A", "http://a/feed", "rss"⟩ "(").1 =
      Return.returned ([], some ⟨"error parsing regexp"⟩) ∧
    (Search sampleLibrary ⟨"E", "http://e/feed", "rss"⟩ "(").1 = Return.returned ([], none) := by
  have hc : sampleLibrary.regexpCompile "(" = Except.error ⟨"error parsing regexp"⟩ := rfl
  have hbad : ¬ validTerm sampleLibrary "(" := by
    rintro ⟨re, hre⟩
    rw [hc] at hre
    cases hre
  have hA := (Search_rejects_bad_term_on_items sampleLibrary ⟨"A", "http://a/feed", "rss"⟩ "("
    (mkDocument [mkItem "the president" "a speech", mkItem "weather" "rain for the president"])
    (by decide) hbad).1 (by decide)
  have hE := (Search_rejects_bad_term_on_items sampleLibrary ⟨"E", "http://e/feed", "rss"⟩ "("
    (mkDocument []) (by decide) hbad).2 rfl
  obtain ⟨err, herr, hsearch⟩ := hA
  rw [hc] at herr
  cases herr
  exact ⟨by decide, hc, hsearch, hE⟩

/-- C7: when the request of a feed is answered with a status code other than
200 (the request is made only for a non-empty URI), `retrieve` returns a nil
document and the error `HTTP Resporse Error <code>` without decoding the
body, and `Search` returns no results and that error whatever the term. -/
theorem retrieve_rejects_status_other_than_200 (lib : Library) (feed : Feed) (resp : Response)
    (huri : feed.URI ≠ "") (hget : lib.httpGet feed.URI = Except.ok resp)
    (hstatus : resp.StatusCode ≠ 200) :
    (retrieve lib feed).1 =
      (none, some ⟨"HTTP Resporse Error " ++ toString resp.StatusCode ++ "\n"⟩) ∧
    IOEvent.bodyDecoded ∉ (retrieve lib feed).2 ∧
    ∀ searchTerm,
      (Search lib feed searchTerm).1 =
        Return.returned ([], some ⟨"HTTP Resporse Error " ++ toString resp.StatusCode ++ "\n"⟩) ∧
      IOEvent.bodyDecoded ∉ (Search lib feed searchTerm).2 := by
  have hr := retrieve_bad_status lib feed resp huri hget hstatus
  refine ⟨by rw [hr], by rw [hr]; simp, ?_⟩
  intro searchTerm
  constructor
  · exact Search_of_retrieve_error lib feed searchTerm none _ (by rw [hr])
  · rw [Search_events, hr]
    simp

theorem retrieve_rejects_status_other_than_200_witness :
    (retrieve sampleLibrary ⟨"B", "http://b/feed", "rss"⟩).1 =
      (none, some ⟨"HTTP Resporse Error 404\n"⟩) ∧
    (Search sampleLibrary ⟨"B", "http://b/feed", "rss"⟩ "president").1 =
      Return.returned ([], some ⟨"HTTP Resporse Error 404\n"⟩) :=
  have h := retrieve_rejects_status_other_than_200 sampleLibrary ⟨"B", "http://b/feed", "rss"⟩
    ⟨404, "not found"⟩ (by decide) rfl (by decide)
  ⟨h.1.trans (by decide), ((h.2.2 "president").1).trans (by decide)⟩

/-- C8: when the URI of the feed is the empty string, `retrieve` returns a nil
document and the error `No rss feed URI provide` and makes no HTTP request
(it has no event at all), and `Search` returns no results and that same error
whatever the search term, again without any HTTP request. -/
theorem retrieve_rejects_empty_URI (lib : Library) (feed : Feed) (h : feed.URI = "") :
    retrieve lib feed = ((none, some ⟨"No rss feed URI provide"⟩), []) ∧
    ∀ searchTerm,
      (Search lib feed searchTerm).1 =
        Return.returned ([], (retrieve lib feed).1.2) ∧
      (retrieve lib feed).1.2 = some ⟨"No rss feed URI provide"⟩ ∧
      ∀ uri, IOEvent.httpGet uri ∉ (Search lib feed searchTerm).2 := by
  have hr := retrieve_empty lib feed h
  refine ⟨hr, ?_⟩
  intro searchTerm
  refine ⟨?_, by rw [hr], ?_⟩
  · rw [hr]
    exact Search_of_retrieve_error lib feed searchTerm none _ (by rw [hr])
  · intro uri
    rw [Search_events, hr]
    simp

theorem retrieve_rejects_empty_URI_witness :
    retrieve sampleLibrary ⟨"A", "", "rss"⟩ = ((none, some ⟨"No rss feed URI provide"⟩), []) ∧
    (Search sampleLibrary ⟨"A", "", "rss"⟩ "(").1 =
      Return.returned ([], some ⟨"No rss feed URI provide"⟩) :=
  have h := retrieve_rejects_empty_URI sampleLibrary ⟨"A", "", "rss"⟩ rfl
  ⟨h.1, ((h.2 "(").1).trans (by decide)⟩

/-- C9: on every path of `retrieve` on which the request returned a response
(status other than 200, or status 200 and then the decoding, failed or not),
the body is closed exactly once, and that is the last event before `retrieve`
returns; on the paths without a response (empty URI, failed request) nothing
is closed: there is no event for an empty URI and only the request for a
failed one. -/
theorem retrieve_closes_body_once (lib : Library) (feed : Feed) :
    (∀ resp, feed.URI ≠ "" → lib.httpGet feed.URI = Except.ok resp →
      (retrieve lib feed).2.count IOEvent.bodyClosed = 1 ∧
      (retrieve lib feed).2.getLast? = some IOEvent.bodyClosed ∧
      (resp.StatusCode ≠ 200 →
        (retrieve lib feed).2 = [IOEvent.httpGet feed.URI, IOEvent.bodyClosed]) ∧
      (resp.StatusCode = 200 →
        (retrieve lib feed).2 =
          [IOEvent.httpGet feed.URI, IOEvent.bodyDecoded, IOEvent.bodyClosed])) ∧
    (feed.URI = "" → (retrieve lib feed).2 = []) ∧
    (∀ err, feed.URI ≠ "" → lib.httpGet feed.URI = Except.error err →
      (retrieve lib feed).2 = [IOEvent.httpGet feed.URI]) ∧
    (retrieve lib feed).2.count IOEvent.bodyClosed ≤ 1 := by
  refine ⟨?_, ?_, ?_, ?_⟩
  · intro resp huri hget
    by_cases hstatus : resp.StatusCode = 200
    · rw [retrieve_decoded lib feed resp huri hget hstatus]
      simp [hstatus]
    · rw [retrieve_bad_status lib feed resp huri hget hstatus]
      simp [hstatus]
  · intro huri
    rw [retrieve_empty lib feed huri]
  · intro err huri hget
    rw [retrieve_get_error lib feed err huri hget]
  · by_cases huri : feed.URI = ""
    · simp [retrieve_empty lib feed huri]
    · cases hget : lib.httpGet feed.URI with
      | error err => simp [retrieve_get_error lib feed err huri hget]
      | ok resp =>
        by_cases hstatus : resp.StatusCode = 200
        · simp [retrieve_decoded lib feed resp huri hget hstatus]
        · simp [retrieve_bad_status lib feed resp huri hget hstatus]

theorem retrieve_closes_body_once_witness :
    (retrieve sampleLibrary ⟨"C", "http://c/feed", "rss"⟩).2.count IOEvent.bodyClosed = 1 ∧
    (retrieve sampleLibrary ⟨"C", "http://c/feed", "rss"⟩).2 =
      [IOEvent.httpGet "http://c/feed", IOEvent.bodyDecoded, IOEvent.bodyClosed] ∧
    (retrieve sampleLibrary ⟨"X", "http://x/feed", "rss"⟩).2 = [IOEvent.httpGet "http://x/feed"] :=
  have h := (retrieve_closes_body_once sampleLibrary ⟨"C", "http://c/feed", "rss"⟩).1
    ⟨200, "<rss"⟩ (by decide) rfl
  ⟨h.1, h.2.2.2 rfl,
    (retrieve_closes_body_once sampleLibrary ⟨"X", "http://x/feed", "rss"⟩).2.2.1
      ⟨"no such host"⟩ (by decide) rfl⟩

/-- C10: `Search` returns a non-nil error only if `retrieve` returned that
error or retrieval succeeded and `regexp.MatchString` failed with it on the
title of an item; when retrieval succeeds and the term is valid, `Search`
returns a nil error, with an empty list when the term matches no title and no
description; and the results of `Search` are the same for two feeds with the
same URI, whatever their types and names. -/
theorem Search_error_only_from_retrieve_or_regexp (lib : Library) (feed : Feed)
    (searchTerm : String) :
    (∀ rs err, (Search lib feed searchTerm).1 = Return.returned (rs, some err) →
      (retrieve lib feed).1.2 = some err ∨
      ∃ document, (retrieve lib feed).1 = (some document, none) ∧
        ∃ it ∈ document.Channel.Item,
          MatchString lib searchTerm it.Title = (false, some err)) ∧
    (∀ document, (retrieve lib feed).1 = (some document, none) → validTerm lib searchTerm →
      ∃ rs, (Search lib feed searchTerm).1 = Return.returned (rs, none) ∧
        ((∀ it ∈ document.Channel.Item, ¬ termMatches lib searchTerm it.Title ∧
            ¬ termMatches lib searchTerm it.Description) → rs = [])) ∧
    (∀ other : Feed, other.URI = feed.URI →
      (Search lib other searchTerm).1 = (Search lib feed searchTerm).1) := by
  refine ⟨?_, ?_, ?_⟩
  · intro rs err h
    rcases hr : (retrieve lib feed).1 with ⟨_ | document, _ | rerr⟩
    · exact absurd hr (retrieve_not_nil_nil lib feed)
    · rw [Search_of_retrieve_error lib feed searchTerm none rerr hr] at h
      simp at h
      left
      simp [h.2]
    · right
      refine ⟨document, rfl, ?_⟩
      rw [Search_of_retrieve_ok lib feed searchTerm document hr] at h
      cases hc : lib.regexpCompile searchTerm with
      | ok re =>
        rw [searchItems_valid lib searchTerm re hc] at h
        simp at h
      | error cerr =>
        cases hitems : document.Channel.Item with
        | nil =>
          rw [hitems] at h
          simp [searchItems] at h
        | cons it rest =>
          rw [hitems, searchItems_invalid lib searchTerm cerr hc] at h
          simp at h
          refine ⟨it, by simp, ?_⟩
          rw [MatchString_error lib searchTerm _ cerr hc, h.2]
    · rw [Search_of_retrieve_error lib feed searchTerm (some document) rerr hr] at h
      simp at h
      left
      simp [h.2]
  · intro document hret hvalid
    obtain ⟨re, hre⟩ := hvalid
    refine ⟨_, Search_eq_specResults lib feed searchTerm document re hret hre, ?_⟩
    intro hno
    have hspec : specResults (lib.regexpMatchString re) document.Channel.Item = [] := by
      simp only [specResults, List.flatMap_eq_nil_iff]
      intro it hit
      have h1 : lib.regexpMatchString re it.Title = false := by
        cases hm : lib.regexpMatchString re it.Title with
        | false => rfl
        | true => exact absurd ⟨re, hre, hm⟩ (hno it hit).1
      have h2 : lib.regexpMatchString re it.Description = false := by
        cases hm : lib.regexpMatchString re it.Description with
        | false => rfl
        | true => exact absurd ⟨re, hre, hm⟩ (hno it hit).2
      simp [h1, h2]
    simp [hspec]
  · intro other hother
    have hret : (retrieve lib other).1 = (retrieve lib feed).1 := by
      simp [retrieve, hother]
    simp only [Search, hret]
    rcases (retrieve lib feed).1 with ⟨_ | document, _ | rerr⟩ <;> rfl

theorem Search_error_only_from_retrieve_or_regexp_witness :
    (retrieve sampleLibrary ⟨"A", "http://a/feed", "rss"⟩).1 =
      (some (mkDocument [mkItem "the president" "a speech",
        mkItem "weather" "rain for the president"]), none) ∧
    sampleLibrary.regexpCompile "senate" = Except.ok "senate".data ∧
    (Search sampleLibrary ⟨"A", "http://a/feed", "rss"⟩ "senate").1 =
      Return.returned ([], none) ∧
    (Search sampleLibrary ⟨"other", "http://a/feed", "atom"⟩ "senate").1 =
      (Search sampleLibrary ⟨"A", "http://a/feed", "rss"⟩ "senate").1 := by
  have hc : sampleLibrary.regexpCompile "senate" = Except.ok "senate".data := rfl
  have hno : ∀ s : String, occursIn "senate".data s.data = false →
      ¬ termMatches sampleLibrary "senate" s := by
    rintro s hs ⟨re, hre, hm⟩
    rw [hc] at hre
    cases hre
    have hm' : occursIn "senate".data s.data = true := hm
    rw [hs] at hm'
    cases hm'
  have h := Search_error_only_from_retrieve_or_regexp sampleLibrary
    ⟨"A", "http://a/feed", "rss"⟩ "senate"
  obtain ⟨rs, hrs, hnil⟩ := h.2.1
    (mkDocument [mkItem "the president" "a speech", mkItem "weather" "rain for the president"])
    (by decide) ⟨"senate".data, hc⟩
  have hempty : rs = [] := by
    apply hnil
    intro it hit
    simp only [mkDocument, List.mem_cons, List.mem_singleton, List.not_mem_nil, or_false] at hit
    rcases hit with rfl | rfl
    · exact ⟨hno _ (by decide), hno _ (by decide)⟩
    · exact ⟨hno _ (by decide), hno _ (by decide)⟩
  subst hempty
  exact ⟨by decide, hc, hrs, h.2.2 ⟨"other", "http://a/feed", "atom"⟩ rfl⟩

/-! ## Properties of the coordinator -/

theorem sum_map_set {α : Type} (f : α → Nat) (l : List α) (i : Nat) (old new : α)
    (h : l[i]? = some old) :
    ((l.set i new).map f).sum + f old = (l.map f).sum + f new := by
  induction l generalizing i with
  | nil => simp at h
  | cons a l ih =>
    cases i with
    | zero =>
      simp at h
      subst h
      simp
      omega
    | succ i =>
      simp only [List.getElem?_cons_succ] at h
      have := ih i h
      simp only [List.set_cons_succ, List.map_cons, List.sum_cons]
      omega

theorem sum_map_eq_zero {α : Type} (f : α → Nat) (l : List α) (h : (l.map f).sum = 0)
    (a : α) (ha : a ∈ l) : f a = 0 := by
  induction l with
  | nil => simp at ha
  | cons b l ih =>
    simp at h
    simp at ha
    rcases ha with rfl | ha
    · exact h.1
    · exact ih h.2 ha

theorem signalled_of_unsignalled_zero (tasks : List TaskState) (h : unsignalled tasks = 0)
    (t : TaskState) (ht : t ∈ tasks) : t = TaskState.signalled := by
  have := sum_map_eq_zero unsignalledWeight tasks h t ht
  cases t <;> simp [unsignalledWeight] at this ⊢

theorem reachable_initialState (feeds : List (Matcher × Feed)) (searchTerm : String) :
    Reachable (totalSends feeds searchTerm) feeds.length (initialState feeds searchTerm) := by
  refine ⟨by simp [initialState], ?_, by simp [initialState], by simp [initialState],
    by simp [initialState], ?_⟩
  · simp only [initialState, unsignalled]
    induction feeds with
    | nil => rfl
    | cons mf feeds ih =>
      simp [unsignalledWeight] at ih ⊢
      omega
  · simp only [initialState, pendingSends, totalSends]
    induction feeds with
    | nil => rfl
    | cons mf feeds ih =>
      simp [pendingWeight] at ih ⊢
      omega

/-- A task that is not signalled keeps the channel open. -/
theorem closes_zero_of_unsignalled {total n : Nat} {s : RunState} (hs : Reachable total n s)
    {i : Nat} {t : TaskState} (hi : s.tasks[i]? = some t) (ht : t ≠ TaskState.signalled) :
    s.closes = 0 ∧ s.supervisorDone = false := by
  have hmem : t ∈ s.tasks := List.getElem?_mem hi
  cases hd : s.supervisorDone with
  | false => exact ⟨by simp [hs.closes_eq, hd], rfl⟩
  | true =>
    have h0 : unsignalled s.tasks = 0 := by
      rw [← hs.counter_eq]
      exact hs.done_counter hd
    exact absurd (signalled_of_unsignalled_zero s.tasks h0 t hmem) ht

theorem reachable_step {total n : Nat} {s s' : RunState} (a : Action)
    (hs : Reachable total n s) (h : step s a = some s') : Reachable total n s' := by
  cases a with
  | perform i =>
    simp only [step] at h
    split at h
    · next result todo hi =>
      simp only [Option.some.injEq] at h
      subst h
      obtain ⟨hc, hd⟩ := closes_zero_of_unsignalled hs hi (by simp)
      have hu := sum_map_set unsignalledWeight s.tasks i _ (TaskState.running todo) hi
      have hp := sum_map_set pendingWeight s.tasks i _ (TaskState.running todo) hi
      have hcons := hs.conservation
      refine ⟨by simp [hs.tasks_length], ?_, by simp [hs.closes_eq], by simp [hd],
        by simp [hc, hs.no_send_on_closed], ?_⟩
      · simp only [unsignalled, unsignalledWeight] at hu ⊢
        rw [hs.counter_eq]
        simp only [unsignalled]
        omega
      · simp only [pendingSends, pendingWeight, sentValues, List.length_cons,
          List.length_append, List.length_nil] at hp hcons ⊢
        omega
    · next err todo hi =>
      simp only [Option.some.injEq] at h
      subst h
      obtain ⟨_, hd⟩ := closes_zero_of_unsignalled hs hi (by simp)
      have hu := sum_map_set unsignalledWeight s.tasks i _ (TaskState.running todo) hi
      have hp := sum_map_set pendingWeight s.tasks i _ (TaskState.running todo) hi
      have hcons := hs.conservation
      refine ⟨by simp [hs.tasks_length], ?_, by simp [hs.closes_eq], by simp [hd],
        by simp [hs.no_send_on_closed], ?_⟩
      · simp only [unsignalled, unsignalledWeight] at hu ⊢
        rw [hs.counter_eq]
        simp only [unsignalled]
        omega
      · simp only [pendingSends, pendingWeight, sentValues] at hp hcons ⊢
        omega
    · simp at h
  | finish i =>
    simp only [step] at h
    split at h
    · next hi =>
      simp only [Option.some.injEq] at h
      subst h
      obtain ⟨_, hd⟩ := closes_zero_of_unsignalled hs hi (by simp)
      have hu := sum_map_set unsignalledWeight s.tasks i _ TaskState.returned hi
      have hp := sum_map_set pendingWeight s.tasks i _ TaskState.returned hi
      have hcons := hs.conservation
      refine ⟨by simp [hs.tasks_length], ?_, by simp [hs.closes_eq], by simp [hd],
        by simp [hs.no_send_on_closed], ?_⟩
      · simp only [unsignalled, unsignalledWeight] at hu ⊢
        rw [hs.counter_eq]
        simp only [unsignalled]
        omega
      · simp only [pendingSends, pendingWeight, sentValues, List.length_nil] at hp hcons ⊢
        omega
    · simp at h
  | signal i =>
    simp only [step] at h
    split at h
    · next hi =>
      simp only [Option.some.injEq] at h
      subst h
      obtain ⟨_, hd⟩ := closes_zero_of_unsignalled hs hi (by simp)
      have hu := sum_map_set unsignalledWeight s.tasks i _ TaskState.signalled hi
      have hp := sum_map_set pendingWeight s.tasks i _ TaskState.signalled hi
      have hcons := hs.conservation
      refine ⟨by simp [hs.tasks_length], ?_, by simp [hs.closes_eq], by simp [hd],
        by simp [hs.no_send_on_closed], ?_⟩
      · simp only [unsignalled, unsignalledWeight] at hu ⊢
        rw [hs.counter_eq]
        simp only [unsignalled]
        omega
      · simp only [pendingSends, pendingWeight] at hp hcons ⊢
        omega
    · simp at h
  | close =>
    simp only [step] at h
    split at h
    · next hcond =>
      simp only [Option.some.injEq] at h
      subst h
      refine ⟨hs.tasks_length, hs.counter_eq, ?_, fun _ => hcond.1, hs.no_send_on_closed,
        hs.conservation⟩
      simp [hs.closes_eq, hcond.2]
    · simp at h

theorem reachable_runSchedule {total n : Nat} (schedule : List Action) {s s' : RunState}
    (hs : Reachable total n s) (h : runSchedule s schedule = some s') : Reachable total n s' := by
  induction schedule generalizing s with
  | nil =>
    simp only [runSchedule, Option.some.injEq] at h
    exact h ▸ hs
  | cons a rest ih =>
    simp only [runSchedule] at h
    cases hstep : step s a with
    | none => simp [hstep] at h
    | some s1 =>
      simp only [hstep] at h
      exact ih (reachable_step a hs hstep) h

/-- In a state where no action is enabled every task has signalled. -/
theorem all_signalled_of_stuck (s : RunState) (h : ∀ a, step s a = none)
    (t : TaskState) (ht : t ∈ s.tasks) : t = TaskState.signalled := by
  obtain ⟨i, hi⟩ := List.getElem?_of_mem ht
  cases t with
  | signalled => rfl
  | returned =>
    have := h (Action.signal i)
    simp [step, hi] at this
  | running todo =>
    cases todo with
    | nil =>
      have := h (Action.finish i)
      simp [step, hi] at this
    | cons e todo =>
      have := h (Action.perform i)
      cases e <;> simp [step, hi] at this

theorem pendingSends_of_all_signalled (tasks : List TaskState)
    (h : ∀ t ∈ tasks, t = TaskState.signalled) : pendingSends tasks = 0 := by
  induction tasks with
  | nil => rfl
  | cons t tasks ih =>
    have ht : t = TaskState.signalled := h t (by simp)
    have htl : pendingSends tasks = 0 := ih fun u hu => h u (by simp [hu])
    subst ht
    simpa [pendingSends, pendingWeight] using htl

theorem unsignalled_of_all_signalled (tasks : List TaskState)
    (h : ∀ t ∈ tasks, t = TaskState.signalled) : unsignalled tasks = 0 := by
  induction tasks with
  | nil => rfl
  | cons t tasks ih =>
    have ht : t = TaskState.signalled := h t (by simp)
    have htl : unsignalled tasks = 0 := ih fun u hu => h u (by simp [hu])
    subst ht
    simpa [unsignalled, unsignalledWeight] using htl

theorem closes_unchanged_by_tasks (s s' : RunState) (a : Action) (h : step s a = some s')
    (ha : a ≠ Action.close) : s'.closes = s.closes := by
  cases a with
  | close => exact absurd rfl ha
  | perform i =>
    simp only [step] at h
    split at h
    · simp only [Option.some.injEq] at h
      subst h
      rfl
    · simp only [Option.some.injEq] at h
      subst h
      rfl
    · simp at h
  | finish i =>
    simp only [step] at h
    split at h
    · simp only [Option.some.injEq] at h
      subst h
      rfl
    · simp at h
  | signal i =>
    simp only [step] at h
    split at h
    · simp only [Option.some.injEq] at h
      subst h
      rfl
    · simp at h

/-- C4: in every state the coordinator reaches from its start, along any
schedule: the channel has been closed at most once; if it has been closed,
every task has signalled (so every call of `Match` has returned) and the
channel holds all the values the calls of `Match` send; no send has reached a
closed channel; the steps of the tasks, which are the events of `Match`, the
return and the signal, leave the number of closings as it is; and once no
step is left to take the channel has been closed exactly once. -/
theorem channel_closed_once_after_all_tasks (feeds : List (Matcher × Feed))
    (searchTerm : String) (schedule : List Action) (s : RunState)
    (h : runSchedule (initialState feeds searchTerm) schedule = some s) :
    s.closes ≤ 1 ∧
    (s.closes = 1 →
      (∀ t ∈ s.tasks, t = TaskState.signalled) ∧
      s.channel.length = totalSends feeds searchTerm) ∧
    s.sendsOnClosed = 0 ∧
    s.tasks.length = feeds.length ∧
    (∀ a s', step s a = some s' → a ≠ Action.close → s'.closes = s.closes) ∧
    ((∀ a, step s a = none) → s.closes = 1) := by
  have hs := reachable_runSchedule schedule (reachable_initialState feeds searchTerm) h
  refine ⟨?_, ?_, hs.no_send_on_closed, hs.tasks_length, ?_, ?_⟩
  · rw [hs.closes_eq]
    split <;> omega
  · intro hclosed
    have hd : s.supervisorDone = true := by
      cases hd : s.supervisorDone with
      | true => rfl
      | false =>
        rw [hs.closes_eq, hd] at hclosed
        simp at hclosed
    have h0 : unsignalled s.tasks = 0 := by
      rw [← hs.counter_eq]
      exact hs.done_counter hd
    have hall := signalled_of_unsignalled_zero s.tasks h0
    refine ⟨hall, ?_⟩
    have hcons := hs.conservation
    rw [pendingSends_of_all_signalled s.tasks hall] at hcons
    simpa using hcons
  · intro a s' hstep ha
    exact closes_unchanged_by_tasks s s' a hstep ha
  · intro hstuck
    have hall := all_signalled_of_stuck s hstuck
    have hcounter : s.counter = 0 := by
      rw [hs.counter_eq]
      exact unsignalled_of_all_signalled s.tasks hall
    have hclose := hstuck Action.close
    cases hd : s.supervisorDone with
    | true => simp [hs.closes_eq, hd]
    | false => simp [step, hcounter, hd] at hclose

theorem channel_closed_once_after_all_tasks_witness :
    runSchedule
      (initialState
        [(constMatcher [some ⟨"Title", "t"⟩, some ⟨"Description", "d"⟩] none,
            ⟨"A", "http://a/feed", "rss"⟩),
          (constMatcher [] (some ⟨"HTTP Resporse Error 404\n"⟩), ⟨"B", "http://b/feed", "rss"⟩)]
        "president")
      [Action.perform 0, Action.perform 1, Action.finish 1, Action.perform 0, Action.signal 1,
        Action.finish 0, Action.signal 0, Action.close] =
      some ⟨[TaskState.signalled, TaskState.signalled], 0, true, 1,
        [some ⟨"Title", "t"⟩, some ⟨"Description", "d"⟩], 0⟩ ∧
    (1 : Nat) ≤ 1 ∧ (0 : Nat) = 0 :=
  have hrun : runSchedule
      (initialState
        [(constMatcher [some ⟨"Title", "t"⟩, some ⟨"Description", "d"⟩] none,
            ⟨"A", "http://a/feed", "rss"⟩),
          (constMatcher [] (some ⟨"HTTP Resporse Error 404\n"⟩), ⟨"B", "http://b/feed", "rss"⟩)]
        "president")
      [Action.perform 0, Action.perform 1, Action.finish 1, Action.perform 0, Action.signal 1,
        Action.finish 0, Action.signal 0, Action.close] =
      some ⟨[TaskState.signalled, TaskState.signalled], 0, true, 1,
        [some ⟨"Title", "t"⟩, some ⟨"Description", "d"⟩], 0⟩ := by decide
  have h := channel_closed_once_after_all_tasks _ _ _ _ hrun
  ⟨hrun, h.1, h.2.2.1⟩

end Chapter2
